import Mathlib

/-!
# Verification of the Telegram relay plugin

Shallow embedding of `plugins/telegram.py` (a Telegram <-> IRC relay for
PyLink).  Python dictionaries (`telegram_users`, `bridge_map`) are modelled
as association lists with python-dict semantics (unique keys, insertion
order, assignment overwrites in place), side-effecting calls on the IRC and
Telegram APIs are modelled as an emitted event trace, and `time.time()` is
an explicit integer parameter.  Fallible calls (`irc.create_user`, which may
raise on a nick collision) are modelled with `Except`, the collision
behaviour itself being an oracle parameter `collide` on the nick.
-/

set_option autoImplicit false

namespace Telegram

/-- A Telegram user profile as delivered by the bot API
(`msg.from_user`): numeric id, optional `username`, optional
`first_name` / `last_name`.  `none` models python `None`. -/
structure TgUser where
  id : Int
  username : Option String
  first_name : Option String
  last_name : Option String
deriving DecidableEq, Repr

/-- A Telegram message as used by `on_telegram_message`: `msg.chat_id`,
`msg.from_user`, `msg.text` (which may be `None`). -/
structure TgMessage where
  chat_id : Int
  from_user : TgUser
  text : Option String
deriving DecidableEq, Repr

/-- Configuration section `cfg["identity"]`: ident / host used for every synthesized IRC user,
and the nick suffix. -/
structure IdentityCfg where
  ident : String
  host : String
  suffix : String
deriving DecidableEq, Repr

/-- Configuration section `cfg["limits"]`. -/
structure Limits where
  nick_max : Nat
  message_max : Nat
deriving DecidableEq, Repr

/-- One entry of `cfg["bridges"]`: `bridge["telegram"]["chat_id"]` and
`bridge["irc"]["channel"]`. -/
structure BridgeCfg where
  tg_chat_id : Int
  irc_channel : String
deriving DecidableEq, Repr

/-- The plugin configuration consumed by the code paths under study. -/
structure Cfg where
  identity : IdentityCfg
  limits : Limits
  bridges : List BridgeCfg
deriving DecidableEq, Repr

/-- The source of an IRC PRIVMSG as seen by `on_irc_privmsg`
(`source.nick`, `source.ident`). -/
structure IrcSource where
  nick : String
  ident : String
deriving DecidableEq, Repr

/-- One entry of the module-level dict `telegram_users`:
`{ "user": ..., "last_seen": ... }`.  The opaque IRC user handle returned
by `irc.create_user` is modelled as a `Nat`. -/
structure UserEntry where
  user : Nat
  last_seen : Int
deriving DecidableEq, Repr

/-- The mutable module-level state of the plugin that the claims touch:
the `telegram_users` dict plus the allocator for fresh IRC user handles
(modelling the successive return values of `irc.create_user`). -/
structure RelayState where
  users : List (Int × UserEntry)
  nextHandle : Nat
deriving DecidableEq, Repr

/-- The empty initial state (`telegram_users = {}` at module load). -/
def initState : RelayState := { users := [], nextHandle := 0 }

/-- Observable side effects on the IRC server and the Telegram API. -/
inductive Event where
  | createUser (nick ident host realname : String) (handle : Nat)
  | joinChan (handle : Nat) (channel : String)
  | sendPrivmsg (channel text : String) (src : Nat)
  | sendTelegram (chat_id : Int) (text : String)
  | quitUser (handle : Nat) (reason : String)
  | logInfo (msg : String)
deriving DecidableEq, Repr

/-! ## Python-semantics helpers -/

/-- Lookup in a python dict modelled as an association list
(first matching key; keys are unique by construction). -/
def alookup {β : Type} (k : Int) : List (Int × β) → Option β
  | [] => none
  | (k2, v) :: rest => if k2 = k then some v else alookup k rest

/-- Lookup keyed by strings (for `bridge_map`). -/
def slookup {β : Type} (k : String) : List (String × β) → Option β
  | [] => none
  | (k2, v) :: rest => if k2 = k then some v else slookup k rest

/-- Python dict assignment `d[k] = v`: overwrites in place if the key
exists, else appends at the end (insertion order). -/
def dictInsert {β : Type} (m : List (String × β)) (k : String) (v : β) :
    List (String × β) :=
  match m with
  | [] => [(k, v)]
  | (k2, v2) :: rest =>
      if k2 = k then (k, v) :: rest else (k2, v2) :: dictInsert rest k v

/-- Assignment `telegram_users[k]["last_seen"] = now` (no-op if the key is absent;
in the code this assignment only runs right after `get_or_create_irc_user`
has guaranteed presence). -/
def setLastSeen (k : Int) (now : Int) :
    List (Int × UserEntry) → List (Int × UserEntry)
  | [] => []
  | (k2, e) :: rest =>
      if k2 = k then (k2, { e with last_seen := now }) :: rest
      else (k2, e) :: setLastSeen k now rest

/-- Python string slicing `s[:n]` for `n ≥ 0`: the first `n` characters. -/
def pyTake (s : String) (n : Nat) : String := String.mk (s.data.take n)

/-- Python truthiness of an optional string (`None` and `""` are falsy). -/
def truthy : Option String → Bool
  | none => false
  | some s => !s.isEmpty

/-- Python `x or ''` on an optional string field. -/
def pyOrEmpty : Option String → String
  | none => ""
  | some s => s

/-- Python `a or b` on strings (`""` is falsy). -/
def pyOr (a b : String) : String := if a.isEmpty then b else a

/-- Python `\s` for the first substitution in `sanitize_irc_name`
(ASCII whitespace: space, tab, newline, vertical tab, form feed,
carriage return). -/
def isPyWhitespace (c : Char) : Bool :=
  c.toNat == 32 || c.toNat == 9 || c.toNat == 10 ||
  c.toNat == 11 || c.toNat == 12 || c.toNat == 13

/-- The character class `[A-Za-z0-9_\-\[\]\\`^{}]` of
`sanitize_irc_name`, by code point (91 `[`, 93 `]`, 92 backslash,
96 backtick, 94 caret, 123/125 braces, 95 underscore, 45 hyphen). -/
def isAllowedIrcChar (c : Char) : Bool :=
  (65 ≤ c.toNat && c.toNat ≤ 90) ||
  (97 ≤ c.toNat && c.toNat ≤ 122) ||
  (48 ≤ c.toNat && c.toNat ≤ 57) ||
  c.toNat == 95 || c.toNat == 45 ||
  c.toNat == 91 || c.toNat == 93 ||
  c.toNat == 92 || c.toNat == 96 ||
  c.toNat == 94 || c.toNat == 123 || c.toNat == 125

/-! ## Embedded plugin functions -/

/-- Embedding of `sanitize_irc_name`: strip whitespace, drop every character outside
the allowed IRC nick alphabet, fall back to `"TGUser"` on empty. -/
def sanitize_irc_name (name : String) : String :=
  let n1 := String.mk (name.data.filter (fun c => !isPyWhitespace c))
  let n2 := String.mk (n1.data.filter isAllowedIrcChar)
  pyOr n2 "TGUser"

/-- The base-name selection inside `build_nick_from_telegram`:
`username` if truthy, else `first_name + last_name`, else `"tg" + id`. -/
def raw_base (u : TgUser) : String :=
  if truthy u.username then pyOrEmpty u.username
  else pyOr (pyOrEmpty u.first_name ++ pyOrEmpty u.last_name)
    ("tg" ++ toString u.id)

/-- Embedding of `build_nick_from_telegram`: sanitize the base, append
`"/" + suffix`, truncate to `nick_max`. -/
def build_nick_from_telegram (u : TgUser) (cfg : Cfg) : String :=
  let base := sanitize_irc_name (raw_base u)
  let nick := base ++ "/" ++ cfg.identity.suffix
  pyTake nick cfg.limits.nick_max

/-- Embedding of `build_realname`. -/
def build_realname (u : TgUser) : String :=
  if truthy u.username then "Telegram @" ++ pyOrEmpty u.username
  else
    String.mk ((("Telegram " ++ pyOrEmpty u.first_name ++ " " ++
      pyOrEmpty u.last_name).data.dropWhile isPyWhitespace).reverse.dropWhile
        isPyWhitespace).reverse

/-- Embedding of `get_or_create_irc_user`.  Returns the IRC user handle, the new state
and the trace of IRC-side effects.  `collide nick = true` models
`irc.create_user` raising (e.g. a nick collision); the exception is not
caught anywhere in the plugin, hence `Except`. -/
def get_or_create_irc_user (cfg : Cfg) (collide : String → Bool)
    (tg_user : TgUser) (now : Int) (st : RelayState) :
    Except String (Nat × RelayState × List Event) :=
  match alookup tg_user.id st.users with
  | some entry => .ok (entry.user, st, [])
  | none =>
      let nick := build_nick_from_telegram tg_user cfg
      if collide nick then .error ("create_user failed: " ++ nick)
      else
        let h := st.nextHandle
        .ok (h,
          { users := st.users ++ [(tg_user.id, { user := h, last_seen := now })],
            nextHandle := h + 1 },
          Event.createUser nick cfg.identity.ident cfg.identity.host
              (build_realname tg_user) h
            :: cfg.bridges.map (fun b => Event.joinChan h b.irc_channel)
            ++ [Event.logInfo ("[telegram] created IRC user: " ++ nick)])

/-- Embedding of `on_telegram_message` (Telegram -> IRC): drop messages without text,
drop unbridged chats, resolve or create the IRC user, refresh
`last_seen`, truncate the text to `message_max`, post to the bridged
channel.  A raise from `irc.create_user` propagates (no try/except). -/
def on_telegram_message (cfg : Cfg) (bmap : List (String × BridgeCfg))
    (collide : String → Bool) (msg : Option TgMessage) (now : Int)
    (st : RelayState) : Except String (RelayState × List Event) :=
  match msg with
  | none => .ok (st, [])
  | some m =>
      match m.text with
      | none => .ok (st, [])
      | some t =>
          if t.isEmpty then .ok (st, [])
          else
            match slookup (toString m.chat_id) bmap with
            | none => .ok (st, [])
            | some bridge =>
                match get_or_create_irc_user cfg collide m.from_user now st with
                | .error e => .error e
                | .ok (user, st1, evs) =>
                    .ok ({ st1 with
                            users := setLastSeen m.from_user.id now st1.users },
                      evs ++ [Event.sendPrivmsg bridge.irc_channel
                        (pyTake t cfg.limits.message_max) user])

/-- Embedding of `on_irc_privmsg` (IRC -> Telegram): anti-loop check on the source
ident, then one `send_message` per configured bridge whose channel
matches the target. -/
def on_irc_privmsg (cfg : Cfg) (source : IrcSource)
    (target message : String) : List Event :=
  if source.ident = cfg.identity.ident then []
  else
    (cfg.bridges.filter (fun b => target = b.irc_channel)).map
      (fun b => Event.sendTelegram b.tg_chat_id
        ("<" ++ source.nick ++ "> " ++ message))

/-- Embedding of `teardown`: log, then `irc.quit` every stored user.  The
`telegram_users` table itself is not written. -/
def teardown (st : RelayState) : RelayState × List Event :=
  (st, Event.logInfo "[telegram] plugin unloaded"
    :: st.users.map (fun p => Event.quitUser p.2.user "Telegram relay shutdown"))

/-- One sweep of the idle-cleanup loop body in `start_cleanup_timer`:
entries with `now - last_seen > timeout` are quit and deleted, the rest
are kept. -/
def cleanup_sweep (timeout now : Int) :
    List (Int × UserEntry) → List (Int × UserEntry) × List Event
  | [] => ([], [])
  | (i, e) :: rest =>
      let r := cleanup_sweep timeout now rest
      if now - e.last_seen > timeout then
        (r.1, Event.quitUser e.user "Telegram idle timeout" :: r.2)
      else ((i, e) :: r.1, r.2)

/-- Embedding of `build_bridge_map`: `bridge_map[str(chat_id)] = bridge` for each
configured bridge, in configuration order, starting from the empty dict. -/
def build_bridge_map (cfg : Cfg) : List (String × BridgeCfg) :=
  cfg.bridges.foldl (fun m b => dictInsert m (toString b.tg_chat_id) b) []

/-! ## Derived observations used by the theorems -/

/-- Is an event a `irc.create_user` call? -/
def isCreateEvent : Event → Bool
  | .createUser .. => true
  | _ => false

/-- Is an event an `irc.send_privmsg` call? -/
def isPrivmsgEvent : Event → Bool
  | .sendPrivmsg .. => true
  | _ => false

/-- Number of `irc.create_user` calls in a trace. -/
def countCreates (evs : List Event) : Nat :=
  (evs.filter isCreateEvent).length

/-- Drive a sequence of `get_or_create_irc_user` calls (one inbound
message per element: the sender profile and the arrival time).  A raise
drops the message (the framework isolates handler exceptions); each
successful call is recorded as `(sender id, returned handle, events)`. -/
def processCalls (cfg : Cfg) (collide : String → Bool) (st : RelayState) :
    List (TgUser × Int) → RelayState × List (Int × Nat × List Event)
  | [] => (st, [])
  | (u, now) :: rest =>
      match get_or_create_irc_user cfg collide u now st with
      | .error _ => processCalls cfg collide st rest
      | .ok (h, st1, evs) =>
          let r := processCalls cfg collide st1 rest
          (r.1, (u.id, h, evs) :: r.2)

/-- Total number of `irc.create_user` calls observed for sender id `i`
across a trace of recorded calls. -/
def createsFor (tr : List (Int × Nat × List Event)) (i : Int) : Nat :=
  ((tr.filter (fun t => t.1 = i)).map (fun t => countCreates t.2.2)).sum

/-- The last element of a list satisfying `p`, if any (python-dict
"later assignment wins" order). -/
def lastMatch {α : Type} (p : α → Bool) : List α → Option α
  | [] => none
  | a :: l =>
      match lastMatch p l with
      | some x => some x
      | none => if p a then some a else none

/-! ## Association-list lemmas -/

theorem alookup_append_left {β : Type} (k : Int) (l1 l2 : List (Int × β))
    (v : β) (h : alookup k l1 = some v) : alookup k (l1 ++ l2) = some v := by
  induction l1 with
  | nil => simp [alookup] at h
  | cons p rest ih =>
      obtain ⟨k2, w⟩ := p
      by_cases hk : k2 = k
      · simp [alookup, hk] at h ⊢; exact h
      · simp [alookup, hk] at h ⊢; exact ih h

theorem alookup_append_right {β : Type} (k : Int) (l1 l2 : List (Int × β))
    (h : alookup k l1 = none) : alookup k (l1 ++ l2) = alookup k l2 := by
  induction l1 with
  | nil => simp [alookup]
  | cons p rest ih =>
      obtain ⟨k2, w⟩ := p
      by_cases hk : k2 = k
      · simp [alookup, hk] at h
      · simp [alookup, hk] at h ⊢; exact ih h

theorem alookup_singleton {β : Type} (k : Int) (v : β) :
    alookup k [(k, v)] = some v := by
  simp [alookup]

theorem alookup_eq_none_iff {β : Type} (k : Int) (l : List (Int × β)) :
    alookup k l = none ↔ k ∉ l.map Prod.fst := by
  induction l with
  | nil => simp [alookup]
  | cons p rest ih =>
      obtain ⟨k2, w⟩ := p
      by_cases hk : k2 = k
      · simp [alookup, hk]
      · simp [alookup, hk, ih]
        intro h; exact fun hc => hk hc.symm

theorem setLastSeen_alookup_self (k now : Int) (l : List (Int × UserEntry))
    (e : UserEntry) (h : alookup k l = some e) :
    alookup k (setLastSeen k now l) = some { e with last_seen := now } := by
  induction l with
  | nil => simp [alookup] at h
  | cons p rest ih =>
      obtain ⟨k2, w⟩ := p
      by_cases hk : k2 = k
      · subst hk
        simp [alookup] at h
        subst h
        simp [setLastSeen, alookup]
      · simp [alookup, hk] at h
        simp [setLastSeen, hk, alookup, ih h]

theorem setLastSeen_user_eq (k now : Int) (l : List (Int × UserEntry)) :
    (setLastSeen k now l).map (fun p => p.2.user)
      = l.map (fun p => p.2.user) := by
  induction l with
  | nil => simp [setLastSeen]
  | cons p rest ih =>
      obtain ⟨k2, w⟩ := p
      by_cases hk : k2 = k <;> simp [setLastSeen, hk, ih]

theorem setLastSeen_keys (k now : Int) (l : List (Int × UserEntry)) :
    (setLastSeen k now l).map Prod.fst = l.map Prod.fst := by
  induction l with
  | nil => simp [setLastSeen]
  | cons p rest ih =>
      obtain ⟨k2, w⟩ := p
      by_cases hk : k2 = k <;> simp [setLastSeen, hk, ih]

theorem slookup_dictInsert_self {β : Type} (m : List (String × β))
    (k : String) (v : β) : slookup k (dictInsert m k v) = some v := by
  induction m with
  | nil => simp [dictInsert, slookup]
  | cons p rest ih =>
      obtain ⟨k2, w⟩ := p
      by_cases hk : k2 = k
      · simp [dictInsert, hk, slookup]
      · simp [dictInsert, hk, slookup, ih]

theorem slookup_dictInsert_ne {β : Type} (m : List (String × β))
    (k k2 : String) (v : β) (h : k2 ≠ k) :
    slookup k (dictInsert m k2 v) = slookup k m := by
  induction m with
  | nil => simp [dictInsert, slookup, h]
  | cons p rest ih =>
      obtain ⟨k3, w⟩ := p
      by_cases hk : k3 = k2
      · subst hk
        simp [dictInsert, slookup, h]
      · by_cases hk2 : k3 = k
        · subst hk2
          simp [dictInsert, Ne.symm h, slookup]
        · simp [dictInsert, hk, slookup, hk2, ih]

/-! ## `get_or_create_irc_user` case lemmas -/

theorem goc_existing (cfg : Cfg) (collide : String → Bool) (u : TgUser)
    (now : Int) (st : RelayState) (e : UserEntry)
    (h : alookup u.id st.users = some e) :
    get_or_create_irc_user cfg collide u now st = .ok (e.user, st, []) := by
  simp [get_or_create_irc_user, h]

theorem goc_create (cfg : Cfg) (collide : String → Bool) (u : TgUser)
    (now : Int) (st : RelayState)
    (h : alookup u.id st.users = none)
    (hc : collide (build_nick_from_telegram u cfg) = false) :
    get_or_create_irc_user cfg collide u now st = .ok (st.nextHandle,
      { users := st.users ++
          [(u.id, { user := st.nextHandle, last_seen := now })],
        nextHandle := st.nextHandle + 1 },
      Event.createUser (build_nick_from_telegram u cfg) cfg.identity.ident
          cfg.identity.host (build_realname u) st.nextHandle
        :: cfg.bridges.map (fun b => Event.joinChan st.nextHandle b.irc_channel)
        ++ [Event.logInfo ("[telegram] created IRC user: " ++
              build_nick_from_telegram u cfg)]) := by
  simp [get_or_create_irc_user, h, hc]

theorem goc_collide (cfg : Cfg) (collide : String → Bool) (u : TgUser)
    (now : Int) (st : RelayState)
    (h : alookup u.id st.users = none)
    (hc : collide (build_nick_from_telegram u cfg) = true) :
    get_or_create_irc_user cfg collide u now st
      = .error ("create_user failed: " ++ build_nick_from_telegram u cfg) := by
  simp [get_or_create_irc_user, h, hc]

/-- Exhaustive characterization of a successful call. -/
theorem goc_ok_cases (cfg : Cfg) (collide : String → Bool) (u : TgUser)
    (now : Int) (st st1 : RelayState) (h : Nat) (evs : List Event)
    (hok : get_or_create_irc_user cfg collide u now st = .ok (h, st1, evs)) :
    (∃ e, alookup u.id st.users = some e ∧ h = e.user ∧ st1 = st ∧ evs = []) ∨
    (alookup u.id st.users = none ∧ h = st.nextHandle ∧
      st1 = { users := st.users ++ [(u.id, { user := h, last_seen := now })],
              nextHandle := h + 1 } ∧
      countCreates evs = 1) := by
  match he : alookup u.id st.users with
  | some e =>
      rw [goc_existing cfg collide u now st e he] at hok
      cases hok
      exact Or.inl ⟨e, rfl, rfl, rfl, rfl⟩
  | none =>
      match hc : collide (build_nick_from_telegram u cfg) with
      | true => rw [goc_collide cfg collide u now st he hc] at hok; cases hok
      | false =>
          rw [goc_create cfg collide u now st he hc] at hok
          cases hok
          refine Or.inr ⟨rfl, rfl, rfl, ?_⟩
          simp [countCreates, isCreateEvent, List.filter_append, List.filter_map]

/-- A successful call never removes or rewrites an existing table entry. -/
theorem goc_preserves_lookup (cfg : Cfg) (collide : String → Bool)
    (u : TgUser) (now : Int) (st st1 : RelayState) (h : Nat)
    (evs : List Event)
    (hok : get_or_create_irc_user cfg collide u now st = .ok (h, st1, evs))
    (i : Int) (e : UserEntry) (hi : alookup i st.users = some e) :
    alookup i st1.users = some e := by
  rcases goc_ok_cases cfg collide u now st st1 h evs hok with
    ⟨e2, _, _, hst, _⟩ | ⟨hnone, _, hst, _⟩
  · rw [hst]; exact hi
  · rw [hst]
    exact alookup_append_left i st.users _ e hi

/-- A successful call never turns an absent other key into a present one. -/
theorem goc_preserves_none (cfg : Cfg) (collide : String → Bool)
    (u : TgUser) (now : Int) (st st1 : RelayState) (h : Nat)
    (evs : List Event)
    (hok : get_or_create_irc_user cfg collide u now st = .ok (h, st1, evs))
    (i : Int) (hne : i ≠ u.id) (hi : alookup i st.users = none) :
    alookup i st1.users = none := by
  rcases goc_ok_cases cfg collide u now st st1 h evs hok with
    ⟨e2, _, _, hst, _⟩ | ⟨hnone, _, hst, _⟩
  · rw [hst]; exact hi
  · rw [hst]
    rw [alookup_append_right i st.users _ hi]
    simp [alookup, hne.symm]

/-- After a successful call the caller's id is present, carrying the
returned handle. -/
theorem goc_self_lookup (cfg : Cfg) (collide : String → Bool) (u : TgUser)
    (now : Int) (st st1 : RelayState) (h : Nat) (evs : List Event)
    (hok : get_or_create_irc_user cfg collide u now st = .ok (h, st1, evs)) :
    ∃ e, alookup u.id st1.users = some e ∧ e.user = h := by
  rcases goc_ok_cases cfg collide u now st st1 h evs hok with
    ⟨e, hsome, hh, hst, _⟩ | ⟨hnone, hh, hst, _⟩
  · exact ⟨e, by rw [hst]; exact hsome, hh.symm⟩
  · refine ⟨{ user := h, last_seen := now }, ?_, rfl⟩
    rw [hst]
    have h2 := alookup_append_right u.id st.users
      [(u.id, ({ user := h, last_seen := now } : UserEntry))] hnone
    rw [h2]
    exact alookup_singleton u.id ({ user := h, last_seen := now } : UserEntry)

/-- A successful call keeps the key list duplicate-free. -/
theorem goc_keys_nodup (cfg : Cfg) (collide : String → Bool) (u : TgUser)
    (now : Int) (st st1 : RelayState) (h : Nat) (evs : List Event)
    (hok : get_or_create_irc_user cfg collide u now st = .ok (h, st1, evs))
    (hnd : (st.users.map Prod.fst).Nodup) :
    (st1.users.map Prod.fst).Nodup := by
  rcases goc_ok_cases cfg collide u now st st1 h evs hok with
    ⟨e2, _, _, hst, _⟩ | ⟨hnone, _, hst, _⟩
  · rw [hst]; exact hnd
  · rw [hst]
    have hnotin : u.id ∉ st.users.map Prod.fst :=
      (alookup_eq_none_iff u.id st.users).mp hnone
    simp [List.nodup_append, hnd, hnotin]

/-- `get_or_create_irc_user` itself never posts a PRIVMSG. -/
theorem goc_no_privmsg (cfg : Cfg) (collide : String → Bool) (u : TgUser)
    (now : Int) (st st1 : RelayState) (h : Nat) (evs : List Event)
    (hok : get_or_create_irc_user cfg collide u now st = .ok (h, st1, evs)) :
    evs.filter isPrivmsgEvent = [] := by
  match he : alookup u.id st.users with
  | some e =>
      rw [goc_existing cfg collide u now st e he] at hok
      cases hok; rfl
  | none =>
      match hc : collide (build_nick_from_telegram u cfg) with
      | true => rw [goc_collide cfg collide u now st he hc] at hok; cases hok
      | false =>
          rw [goc_create cfg collide u now st he hc] at hok
          cases hok
          simp [isPrivmsgEvent, List.filter_append, List.filter_map]

/-! ## `processCalls` invariants -/

theorem createsFor_nil (i : Int) : createsFor [] i = 0 := rfl

theorem createsFor_cons (t : Int × Nat × List Event)
    (tr : List (Int × Nat × List Event)) (i : Int) :
    createsFor (t :: tr) i =
      (if t.1 = i then countCreates t.2.2 else 0) + createsFor tr i := by
  by_cases h : t.1 = i <;> simp [createsFor, List.filter_cons, h]

theorem goc_ok_of_no_collide (cfg : Cfg) (collide : String → Bool)
    (u : TgUser) (now : Int) (st : RelayState)
    (hcol : ∀ s, collide s = false) :
    ∃ h st1 evs,
      get_or_create_irc_user cfg collide u now st = .ok (h, st1, evs) := by
  match he : alookup u.id st.users with
  | some e => exact ⟨e.user, st, [], goc_existing cfg collide u now st e he⟩
  | none =>
      exact ⟨_, _, _, goc_create cfg collide u now st he
        (hcol (build_nick_from_telegram u cfg))⟩

/-- Entries present before a call sequence are still present, unchanged,
after it. -/
theorem processCalls_mono (cfg : Cfg) (collide : String → Bool)
    (msgs : List (TgUser × Int)) :
    ∀ (st : RelayState) (i : Int) (e : UserEntry),
      alookup i st.users = some e →
      alookup i (processCalls cfg collide st msgs).1.users = some e := by
  induction msgs with
  | nil => intro st i e h; simpa [processCalls] using h
  | cons p rest ih =>
      intro st i e h
      obtain ⟨u, now⟩ := p
      match hg : get_or_create_irc_user cfg collide u now st with
      | .error s => simpa [processCalls, hg] using ih st i e h
      | .ok (hh, st1, evs) =>
          have h1 := goc_preserves_lookup cfg collide u now st st1 hh evs hg
            i e h
          simpa [processCalls, hg] using ih st1 i e h1

/-- Absent keys distinct from every sender id in the sequence stay
absent. -/
theorem processCalls_none (cfg : Cfg) (collide : String → Bool)
    (msgs : List (TgUser × Int)) :
    ∀ (st : RelayState) (i : Int), (∀ m, m ∈ msgs → m.1.id ≠ i) →
      alookup i st.users = none →
      alookup i (processCalls cfg collide st msgs).1.users = none := by
  induction msgs with
  | nil => intro st i _ h; simpa [processCalls] using h
  | cons p rest ih =>
      intro st i hne h
      obtain ⟨u, now⟩ := p
      have hneu : u.id ≠ i := hne (u, now) (by simp)
      have hner : ∀ m, m ∈ rest → m.1.id ≠ i :=
        fun m hm => hne m (by simp [hm])
      match hg : get_or_create_irc_user cfg collide u now st with
      | .error s => simpa [processCalls, hg] using ih st i hner h
      | .ok (hh, st1, evs) =>
          have h1 := goc_preserves_none cfg collide u now st st1 hh evs hg
            i (fun hc => hneu hc.symm) h
          simpa [processCalls, hg] using ih st1 i hner h1

/-- Every recorded call's handle agrees with the final table. -/
theorem processCalls_trace_final (cfg : Cfg) (collide : String → Bool)
    (msgs : List (TgUser × Int)) :
    ∀ (st : RelayState) (t : Int × Nat × List Event),
      t ∈ (processCalls cfg collide st msgs).2 →
      ∃ e, alookup t.1 (processCalls cfg collide st msgs).1.users = some e ∧
        e.user = t.2.1 := by
  induction msgs with
  | nil => intro st t ht; simp [processCalls] at ht
  | cons p rest ih =>
      intro st t ht
      obtain ⟨u, now⟩ := p
      match hg : get_or_create_irc_user cfg collide u now st with
      | .error s =>
          simp only [processCalls, hg] at ht ⊢
          exact ih st t ht
      | .ok (hh, st1, evs) =>
          simp only [processCalls, hg, List.mem_cons] at ht ⊢
          rcases ht with hhead | htail
          · subst hhead
            obtain ⟨e, he, heu⟩ :=
              goc_self_lookup cfg collide u now st st1 hh evs hg
            exact ⟨e, processCalls_mono cfg collide rest st1 u.id e he, heu⟩
          · exact ih st1 t htail

/-- Once a sender id is in the table, no later call creates for it. -/
theorem processCalls_creates_zero (cfg : Cfg) (collide : String → Bool)
    (msgs : List (TgUser × Int)) :
    ∀ (st : RelayState) (i : Int) (e : UserEntry),
      alookup i st.users = some e →
      createsFor (processCalls cfg collide st msgs).2 i = 0 := by
  induction msgs with
  | nil => intro st i e _; simp [processCalls, createsFor_nil]
  | cons p rest ih =>
      intro st i e h
      obtain ⟨u, now⟩ := p
      match hg : get_or_create_irc_user cfg collide u now st with
      | .error s =>
          simp only [processCalls, hg]
          exact ih st i e h
      | .ok (hh, st1, evs) =>
          have h1 := goc_preserves_lookup cfg collide u now st st1 hh evs hg
            i e h
          simp only [processCalls, hg, createsFor_cons]
          rw [ih st1 i e h1]
          by_cases hui : u.id = i
          · subst hui
            rcases goc_ok_cases cfg collide u now st st1 hh evs hg with
              ⟨e2, _, _, _, hevs⟩ | ⟨hnone, _, _, _⟩
            · simp [hevs, countCreates]
            · rw [h] at hnone; cases hnone
          · simp [hui]

/-- At most one creation per sender id over any call sequence starting
from a state where the id is absent. -/
theorem processCalls_creates_le_one_of_none (cfg : Cfg)
    (collide : String → Bool) (msgs : List (TgUser × Int)) :
    ∀ (st : RelayState) (i : Int), alookup i st.users = none →
      createsFor (processCalls cfg collide st msgs).2 i ≤ 1 := by
  induction msgs with
  | nil => intro st i _; simp [processCalls, createsFor_nil]
  | cons p rest ih =>
      intro st i h
      obtain ⟨u, now⟩ := p
      match hg : get_or_create_irc_user cfg collide u now st with
      | .error s =>
          simp only [processCalls, hg]
          exact ih st i h
      | .ok (hh, st1, evs) =>
          simp only [processCalls, hg, createsFor_cons]
          by_cases hui : u.id = i
          · subst hui
            rcases goc_ok_cases cfg collide u now st st1 hh evs hg with
              ⟨e2, hsome, _, _, _⟩ | ⟨hnone, _, _, hcnt⟩
            · rw [h] at hsome; cases hsome
            · obtain ⟨e, he, _⟩ :=
                goc_self_lookup cfg collide u now st st1 hh evs hg
              rw [processCalls_creates_zero cfg collide rest st1 u.id e he]
              simp [hcnt]
          · simp only [hui, if_false]
            have h1 := goc_preserves_none cfg collide u now st st1 hh evs hg
              i (fun hc => hui hc.symm) h
            simpa using ih st1 i h1

theorem processCalls_creates_le_one (cfg : Cfg) (collide : String → Bool)
    (msgs : List (TgUser × Int)) (st : RelayState) (i : Int) :
    createsFor (processCalls cfg collide st msgs).2 i ≤ 1 := by
  match h : alookup i st.users with
  | some e =>
      rw [processCalls_creates_zero cfg collide msgs st i e h]
      exact Nat.zero_le 1
  | none => exact processCalls_creates_le_one_of_none cfg collide msgs st i h

/-- Exactly one creation per sender id that occurs in the sequence, when
no nick ever collides and the id starts absent. -/
theorem processCalls_creates_eq_one (cfg : Cfg) (collide : String → Bool)
    (msgs : List (TgUser × Int)) (hcol : ∀ s, collide s = false) :
    ∀ (st : RelayState) (i : Int), alookup i st.users = none →
      (∃ m, m ∈ msgs ∧ m.1.id = i) →
      createsFor (processCalls cfg collide st msgs).2 i = 1 := by
  induction msgs with
  | nil => intro st i _ hex; simp at hex
  | cons p rest ih =>
      intro st i h hex
      obtain ⟨u, now⟩ := p
      obtain ⟨hh, st1, evs, hg⟩ :=
        goc_ok_of_no_collide cfg collide u now st hcol
      simp only [processCalls, hg, createsFor_cons]
      by_cases hui : u.id = i
      · subst hui
        rcases goc_ok_cases cfg collide u now st st1 hh evs hg with
          ⟨e2, hsome, _, _, _⟩ | ⟨hnone, _, _, hcnt⟩
        · rw [h] at hsome; cases hsome
        · obtain ⟨e, he, _⟩ :=
            goc_self_lookup cfg collide u now st st1 hh evs hg
          rw [processCalls_creates_zero cfg collide rest st1 u.id e he]
          simp [hcnt]
      · simp only [hui, if_false]
        have h1 := goc_preserves_none cfg collide u now st st1 hh evs hg
          i (fun hc => hui hc.symm) h
        have hex2 : ∃ m, m ∈ rest ∧ m.1.id = i := by
          rcases hex with ⟨m, hm, hmi⟩
          rcases List.mem_cons.mp hm with hm1 | hm2
          · exfalso; apply hui; rw [← hmi, hm1]
          · exact ⟨m, hm2, hmi⟩
        simpa using ih st1 i h1 hex2

/-- The table's key list stays duplicate-free over any call sequence. -/
theorem processCalls_nodup (cfg : Cfg) (collide : String → Bool)
    (msgs : List (TgUser × Int)) :
    ∀ (st : RelayState), (st.users.map Prod.fst).Nodup →
      ((processCalls cfg collide st msgs).1.users.map Prod.fst).Nodup := by
  induction msgs with
  | nil => intro st h; simpa [processCalls] using h
  | cons p rest ih =>
      intro st h
      obtain ⟨u, now⟩ := p
      match hg : get_or_create_irc_user cfg collide u now st with
      | .error s => simpa [processCalls, hg] using ih st h
      | .ok (hh, st1, evs) =>
          have h1 := goc_keys_nodup cfg collide u now st st1 hh evs hg h
          simpa [processCalls, hg] using ih st1 h1

/-! ## Concrete fixtures for witnesses -/

/-- A small concrete configuration: one bridge, relay ident `"telegram"`. -/
def wCfg : Cfg :=
  { identity := { ident := "telegram", host := "tg.relay", suffix := "tg" },
    limits := { nick_max := 30, message_max := 400 },
    bridges := [{ tg_chat_id := -100, irc_channel := "#chan" }] }

/-- A concrete Telegram profile with a username. -/
def wAlice : TgUser :=
  { id := 5, username := some "alice", first_name := none, last_name := none }

/-! ## Claims -/

/-- C1: over any sequence of inbound calls to `get_or_create_irc_user`
(driven by `processCalls` from the empty initial table), every call with
the same sender id returns the same IRC user handle, at most one
`irc.create_user` call is observed per id — exactly one if no creation
ever fails and the id occurs — and the `telegram_users` table never holds
two entries for one id. -/
theorem identity_uniqueness (cfg : Cfg) (collide : String → Bool)
    (msgs : List (TgUser × Int)) :
    (∀ t1, t1 ∈ (processCalls cfg collide initState msgs).2 →
      ∀ t2, t2 ∈ (processCalls cfg collide initState msgs).2 →
      t1.1 = t2.1 → t1.2.1 = t2.2.1) ∧
    (∀ i, createsFor (processCalls cfg collide initState msgs).2 i ≤ 1) ∧
    ((∀ s, collide s = false) →
      ∀ i, (∃ m, m ∈ msgs ∧ m.1.id = i) →
      createsFor (processCalls cfg collide initState msgs).2 i = 1) ∧
    ((processCalls cfg collide initState msgs).1.users.map Prod.fst).Nodup := by
  refine ⟨?_, ?_, ?_, ?_⟩
  · intro t1 h1 t2 h2 heq
    obtain ⟨e1, he1, hu1⟩ :=
      processCalls_trace_final cfg collide msgs initState t1 h1
    obtain ⟨e2, he2, hu2⟩ :=
      processCalls_trace_final cfg collide msgs initState t2 h2
    rw [heq] at he1
    rw [he1] at he2
    cases he2
    rw [← hu1, ← hu2]
  · intro i
    exact processCalls_creates_le_one cfg collide msgs initState i
  · intro hcol i hex
    exact processCalls_creates_eq_one cfg collide msgs hcol initState i
      rfl hex
  · exact processCalls_nodup cfg collide msgs initState (by simp [initState])

/-- C1 witness: two messages from the same profile (id 5) yield exactly
one `irc.create_user` call. -/
theorem identity_uniqueness_witness :
    createsFor (processCalls wCfg (fun _ => false) initState
      [(wAlice, 10), (wAlice, 20)]).2 5 = 1 :=
  (identity_uniqueness wCfg (fun _ => false) [(wAlice, 10), (wAlice, 20)]).2.2.1
    (fun _ => rfl) 5 ⟨(wAlice, 10), by decide, by decide⟩

/-- C2: anti-loop — a local PRIVMSG whose source ident equals the
configured relay ident produces no outbound Telegram send at all,
whatever the target channel and text. -/
theorem anti_loop (cfg : Cfg) (source : IrcSource) (target message : String)
    (h : source.ident = cfg.identity.ident) :
    on_irc_privmsg cfg source target message = [] ∧
    ∀ chat text, Event.sendTelegram chat text ∉
      on_irc_privmsg cfg source target message := by
  refine ⟨by simp [on_irc_privmsg, h], ?_⟩
  intro chat text
  simp [on_irc_privmsg, h]

/-- C2 witness: a message from ident `"telegram"` (the relay ident of
`wCfg`) in the bridged channel is discarded. -/
theorem anti_loop_witness :
    on_irc_privmsg wCfg { nick := "bob", ident := "telegram" } "#chan" "hi"
      = [] :=
  (anti_loop wCfg { nick := "bob", ident := "telegram" } "#chan" "hi" rfl).1

/-- Shared helper: a successful inbound relay of a text message from a
bridged chat emits exactly one PRIVMSG, to the resolved bridge's channel,
carrying the truncated text. -/
theorem onTg_one_privmsg (cfg : Cfg) (bmap : List (String × BridgeCfg))
    (collide : String → Bool) (m : TgMessage) (t : String) (now : Int)
    (st st' : RelayState) (evs : List Event) (b : BridgeCfg)
    (ht : m.text = some t) (hne : t.isEmpty = false)
    (hb : slookup (toString m.chat_id) bmap = some b)
    (hok : on_telegram_message cfg bmap collide (some m) now st
      = .ok (st', evs)) :
    ∃ h, evs.filter isPrivmsgEvent =
      [Event.sendPrivmsg b.irc_channel (pyTake t cfg.limits.message_max) h] := by
  simp only [on_telegram_message, ht, hne, hb, Bool.false_eq_true,
    if_false] at hok
  match hg : get_or_create_irc_user cfg collide m.from_user now st with
  | .error s => rw [hg] at hok; cases hok
  | .ok (user, st1, evs1) =>
      rw [hg] at hok
      cases hok
      refine ⟨user, ?_⟩
      rw [List.filter_append,
        goc_no_privmsg cfg collide m.from_user now st st1 user evs1 hg]
      simp [isPrivmsgEvent]

/-- Transfer of `Nodup` along two maps when the second map distinguishes
at least as much as the first. -/
theorem nodup_map_of_nodup_map {α β γ : Type} (g : α → β) (f : α → γ)
    (hfg : ∀ a b, f a = f b → g a = g b) (l : List α)
    (h : (l.map g).Nodup) : (l.map f).Nodup := by
  induction l with
  | nil => simp
  | cons a rest ih =>
      simp only [List.map_cons, List.nodup_cons, List.mem_map] at h ⊢
      obtain ⟨hna, hnd⟩ := h
      refine ⟨?_, ih hnd⟩
      rintro ⟨b, hb, hfb⟩
      exact hna ⟨b, hb, hfg b a hfb⟩

/-- C3: multi-channel fan-out.  Inbound: a remote text message whose chat
id resolves in the bridge map yields exactly one local post, to that
bridge's channel.  Outbound: a local message from a non-relay ident is
sent once per configured bridge matching the target channel, formatted
`"<nick> <text>"`; when those bridges' remote chat ids are pairwise
distinct this is exactly one send per distinct remote chat. -/
theorem multi_channel_fanout (cfg : Cfg) (bmap : List (String × BridgeCfg))
    (collide : String → Bool) (m : TgMessage) (t : String) (now : Int)
    (st st' : RelayState) (evs : List Event) (b : BridgeCfg)
    (source : IrcSource) (target message : String) :
    (m.text = some t → t.isEmpty = false →
      slookup (toString m.chat_id) bmap = some b →
      on_telegram_message cfg bmap collide (some m) now st = .ok (st', evs) →
      ∃ h, evs.filter isPrivmsgEvent =
        [Event.sendPrivmsg b.irc_channel (pyTake t cfg.limits.message_max) h]) ∧
    (source.ident ≠ cfg.identity.ident →
      on_irc_privmsg cfg source target message =
        (cfg.bridges.filter (fun br => target = br.irc_channel)).map
          (fun br => Event.sendTelegram br.tg_chat_id
            ("<" ++ source.nick ++ "> " ++ message)) ∧
      (((cfg.bridges.filter (fun br => target = br.irc_channel)).map
          (fun br => br.tg_chat_id)).Nodup →
        ∀ br, br ∈ cfg.bridges.filter (fun br => target = br.irc_channel) →
          (on_irc_privmsg cfg source target message).count
            (Event.sendTelegram br.tg_chat_id
              ("<" ++ source.nick ++ "> " ++ message)) = 1)) := by
  constructor
  · intro ht hne hb hok
    exact onTg_one_privmsg cfg bmap collide m t now st st' evs b ht hne hb hok
  · intro hsrc
    have heq : on_irc_privmsg cfg source target message =
        (cfg.bridges.filter (fun br => target = br.irc_channel)).map
          (fun br => Event.sendTelegram br.tg_chat_id
            ("<" ++ source.nick ++ "> " ++ message)) := by
      simp [on_irc_privmsg, hsrc]
    refine ⟨heq, ?_⟩
    intro hnd br hbr
    rw [heq]
    have hmem : Event.sendTelegram br.tg_chat_id
        ("<" ++ source.nick ++ "> " ++ message) ∈
        (cfg.bridges.filter (fun br => target = br.irc_channel)).map
          (fun br => Event.sendTelegram br.tg_chat_id
            ("<" ++ source.nick ++ "> " ++ message)) :=
      List.mem_map.mpr ⟨br, hbr, rfl⟩
    have hnd2 := nodup_map_of_nodup_map (fun br => br.tg_chat_id)
      (fun br => Event.sendTelegram br.tg_chat_id
        ("<" ++ source.nick ++ "> " ++ message))
      (fun a b hab => by injection hab)
      (cfg.bridges.filter (fun br => target = br.irc_channel)) hnd
    exact List.count_eq_one_of_mem hnd2 hmem

/-- The bridge of `wCfg`. -/
def wBridge : BridgeCfg := { tg_chat_id := -100, irc_channel := "#chan" }

/-- A concrete inbound Telegram message from `wAlice` in the bridged
chat. -/
def wMsg : TgMessage := { chat_id := -100, from_user := wAlice, text := some "hi" }

/-- A native (non-relay) IRC user. -/
def wBob : IrcSource := { nick := "bob", ident := "bob" }

/-- The state after relaying `wMsg` into the empty state at time 7. -/
def wSt : RelayState :=
  { users := [(5, { user := 0, last_seen := 7 })], nextHandle := 1 }

/-- The events of that relay. -/
def wEvs : List Event :=
  [Event.createUser "alice/tg" "telegram" "tg.relay" "Telegram @alice" 0,
   Event.joinChan 0 "#chan",
   Event.logInfo "[telegram] created IRC user: alice/tg",
   Event.sendPrivmsg "#chan" "hi" 0]

/-- C3 witness: the remote message `wMsg` is posted exactly once to
`#chan`, and a local message from `wBob` in `#chan` is sent exactly once
to the bridged Telegram chat. -/
theorem multi_channel_fanout_witness :
    (∃ h, wEvs.filter isPrivmsgEvent =
      [Event.sendPrivmsg wBridge.irc_channel
        (pyTake "hi" wCfg.limits.message_max) h]) ∧
    (on_irc_privmsg wCfg wBob "#chan" "yo").count
      (Event.sendTelegram wBridge.tg_chat_id
        ("<" ++ wBob.nick ++ "> " ++ "yo")) = 1 := by
  constructor
  · exact (multi_channel_fanout wCfg (build_bridge_map wCfg) (fun _ => false)
      wMsg "hi" 7 initState wSt wEvs wBridge wBob "#chan" "yo").1
      rfl (by decide) (by decide) rfl
  · exact ((multi_channel_fanout wCfg (build_bridge_map wCfg) (fun _ => false)
      wMsg "hi" 7 initState wSt wEvs wBridge wBob "#chan" "yo").2
      (by decide)).2 (by decide) wBridge (by decide)

/-- A state with `wAlice` (id 5) already registered, last seen at 100. -/
def c4St : RelayState :=
  { users := [(5, { user := 3, last_seen := 100 })], nextHandle := 4 }

/-- The state after `on_telegram_message` relays `wMsg` over `c4St` at
time 200. -/
def c4St2 : RelayState :=
  { users := [(5, { user := 3, last_seen := 200 })], nextHandle := 4 }

/-- C4 counterexample: calling `get_or_create_irc_user` at time 200 for
the already-registered id 5 returns the stored handle but leaves the
table — including `last_seen = 100` — untouched, so the function itself
does not update the activity timestamp as the claim states. -/
theorem goc_no_lastseen_update_counterexample :
    get_or_create_irc_user wCfg (fun _ => false) wAlice 200 c4St
      = .ok (3, c4St, []) ∧
    alookup 5 c4St.users = some { user := 3, last_seen := 100 } ∧
    (100 : Int) ≠ 200 :=
  ⟨rfl, by decide, by decide⟩

/-- C4 (amended): on an existing id, `get_or_create_irc_user` returns the
stored identity and leaves the table, `last_seen` included, unchanged;
the `last_seen` refresh instead happens in `on_telegram_message`, which
sets the sender's entry to the current time on every successfully relayed
inbound message. -/
theorem goc_existing_contract (cfg : Cfg) (collide : String → Bool)
    (u : TgUser) (now : Int) (st : RelayState) (e : UserEntry)
    (bmap : List (String × BridgeCfg)) (m : TgMessage) (t : String)
    (st' : RelayState) (evs : List Event) (b : BridgeCfg)
    (he : alookup u.id st.users = some e) :
    get_or_create_irc_user cfg collide u now st = .ok (e.user, st, []) ∧
    (m.text = some t → t.isEmpty = false →
      slookup (toString m.chat_id) bmap = some b →
      on_telegram_message cfg bmap collide (some m) now st = .ok (st', evs) →
      ∃ e2, alookup m.from_user.id st'.users = some e2 ∧
        e2.last_seen = now) := by
  refine ⟨goc_existing cfg collide u now st e he, ?_⟩
  intro ht hne hb hok
  simp only [on_telegram_message, ht, hne, hb, Bool.false_eq_true,
    if_false] at hok
  match hg : get_or_create_irc_user cfg collide m.from_user now st with
  | .error s => rw [hg] at hok; cases hok
  | .ok (user, st1, evs1) =>
      rw [hg] at hok
      cases hok
      obtain ⟨e1, he1, _⟩ :=
        goc_self_lookup cfg collide m.from_user now st st1 user evs1 hg
      exact ⟨{ e1 with last_seen := now },
        setLastSeen_alookup_self m.from_user.id now st1.users e1 he1, rfl⟩

/-- C4 witness: over `c4St`, the call at time 200 returns handle 3 with
the table unchanged, while relaying `wMsg` through the handler at time
200 does set id 5's `last_seen` to 200. -/
theorem goc_existing_contract_witness :
    get_or_create_irc_user wCfg (fun _ => false) wAlice 200 c4St
      = .ok (3, c4St, []) ∧
    ∃ e2, alookup 5 c4St2.users = some e2 ∧ e2.last_seen = 200 := by
  have h := goc_existing_contract wCfg (fun _ => false) wAlice 200 c4St
    ({ user := 3, last_seen := 100 } : UserEntry) (build_bridge_map wCfg)
    wMsg "hi" c4St2 [Event.sendPrivmsg "#chan" "hi" 3] wBridge (by decide)
  exact ⟨h.1, h.2 rfl (by decide) (by decide) rfl⟩

/-- Closed form of one reaper sweep: retained and evicted entries are
the two filter halves of the table by the strict idle test. -/
theorem cleanup_sweep_spec (timeout now : Int)
    (users : List (Int × UserEntry)) :
    cleanup_sweep timeout now users
      = (users.filter (fun p => !decide (now - p.2.last_seen > timeout)),
         (users.filter (fun p => decide (now - p.2.last_seen > timeout))).map
           (fun p => Event.quitUser p.2.user "Telegram idle timeout")) := by
  induction users with
  | nil => rfl
  | cons p rest ih =>
      obtain ⟨i, e⟩ := p
      simp only [cleanup_sweep, ih, List.filter_cons]
      by_cases h : now - e.last_seen > timeout
      · simp [h]
      · simp [h]

/-- C5: one reaper sweep retains exactly the entries with
`now - last_seen ≤ timeout` and quits-and-deletes exactly those with
`now - last_seen > timeout`, in table order; with `idle_timeout = 3600`
an identity last active 3601 seconds ago is evicted while one last
active 3599 seconds ago is retained. -/
theorem idle_eviction_boundary (timeout now : Int)
    (users : List (Int × UserEntry)) :
    (cleanup_sweep timeout now users).1
      = users.filter (fun p => decide (now - p.2.last_seen ≤ timeout)) ∧
    (cleanup_sweep timeout now users).2
      = (users.filter (fun p => decide (timeout < now - p.2.last_seen))).map
          (fun p => Event.quitUser p.2.user "Telegram idle timeout") ∧
    cleanup_sweep 3600 1000000
        [(1, { user := 5, last_seen := 1000000 - 3601 }),
         (2, { user := 6, last_seen := 1000000 - 3599 })]
      = ([(2, { user := 6, last_seen := 1000000 - 3599 })],
         [Event.quitUser 5 "Telegram idle timeout"]) := by
  have hfe : ∀ q : Int × UserEntry,
      (!decide (now - q.2.last_seen > timeout))
        = decide (now - q.2.last_seen ≤ timeout) := by
    intro q
    by_cases h : now - q.2.last_seen > timeout
    · simp [h, not_le.mpr h]
    · simp [h, not_lt.mp h]
  refine ⟨?_, ?_, by decide⟩
  · rw [cleanup_sweep_spec]
    exact List.filter_congr (fun a _ => hfe a)
  · rw [cleanup_sweep_spec]

theorem pyTake_length (s : String) (n : Nat) :
    (pyTake s n).length = min n s.length := by
  show (s.data.take n).length = min n s.data.length
  exact List.length_take n s.data

theorem pyTake_of_le (s : String) (n : Nat) (h : s.length ≤ n) :
    pyTake s n = s := by
  show String.mk (s.data.take n) = s
  rw [List.take_of_length_le h]

/-- C6: if the sanitized base plus `"/" + suffix` exceeds `nick_max`,
`build_nick_from_telegram` returns exactly `nick_max` characters (the
prefix `pyTake full nick_max` of the suffixed name); a name within the
limit is returned unshortened. -/
theorem nick_truncation_boundary (u : TgUser) (cfg : Cfg) :
    ((sanitize_irc_name (raw_base u) ++ "/" ++ cfg.identity.suffix).length
        > cfg.limits.nick_max →
      (build_nick_from_telegram u cfg).length = cfg.limits.nick_max ∧
      build_nick_from_telegram u cfg =
        pyTake (sanitize_irc_name (raw_base u) ++ "/" ++ cfg.identity.suffix)
          cfg.limits.nick_max) ∧
    ((sanitize_irc_name (raw_base u) ++ "/" ++ cfg.identity.suffix).length
        ≤ cfg.limits.nick_max →
      build_nick_from_telegram u cfg =
        sanitize_irc_name (raw_base u) ++ "/" ++ cfg.identity.suffix) := by
  constructor
  · intro h
    refine ⟨?_, rfl⟩
    show (pyTake (sanitize_irc_name (raw_base u) ++ "/" ++
      cfg.identity.suffix) cfg.limits.nick_max).length = cfg.limits.nick_max
    rw [pyTake_length]
    omega
  · intro h
    exact pyTake_of_le _ _ h

/-- A profile whose suffixed nick exceeds `wCfg`'s 30-character cap. -/
def wLong : TgUser :=
  { id := 9, username := some "abcdefghijklmnopqrstuvwxyz0123456789",
    first_name := none, last_name := none }

/-- C6 witness: `wLong`'s nick is cut to exactly 30 characters, while
`wAlice`'s short nick is returned unshortened. -/
theorem nick_truncation_boundary_witness :
    (build_nick_from_telegram wLong wCfg).length = wCfg.limits.nick_max ∧
    build_nick_from_telegram wAlice wCfg =
      sanitize_irc_name (raw_base wAlice) ++ "/" ++ wCfg.identity.suffix :=
  ⟨((nick_truncation_boundary wLong wCfg).1 (by decide)).1,
   (nick_truncation_boundary wAlice wCfg).2 (by decide)⟩

theorem pyOr_ne_empty (a b : String) (hb : b ≠ "") : pyOr a b ≠ "" := by
  unfold pyOr
  by_cases h : a.isEmpty
  · simpa [h] using hb
  · simp only [h, Bool.false_eq_true, if_false]
    intro hc
    rw [hc] at h
    exact h rfl

/-- C7: base-name fallback chain.  Without a username the base is the
separator-free concatenation of first and last name; if that is empty it
is `"tg" + id`; sanitization never returns the empty string (an
all-emoji name collapses to the literal `"TGUser"`), so the sanitized
base of any profile is non-empty. -/
theorem naming_fallback_nonempty (u : TgUser) (s : String) :
    (truthy u.username = false →
      ((pyOrEmpty u.first_name ++ pyOrEmpty u.last_name).isEmpty = false →
        raw_base u = pyOrEmpty u.first_name ++ pyOrEmpty u.last_name) ∧
      ((pyOrEmpty u.first_name ++ pyOrEmpty u.last_name).isEmpty = true →
        raw_base u = "tg" ++ toString u.id)) ∧
    sanitize_irc_name s ≠ "" ∧
    sanitize_irc_name "😀😀😀" = "TGUser" ∧
    sanitize_irc_name (raw_base u) ≠ "" := by
  refine ⟨?_, ?_, by decide, ?_⟩
  · intro hu
    constructor
    · intro hne
      simp [raw_base, hu, pyOr, hne]
    · intro he
      simp [raw_base, hu, pyOr, he]
  · exact pyOr_ne_empty _ "TGUser" (by decide)
  · exact pyOr_ne_empty _ "TGUser" (by decide)

/-- A profile with no username and no name fields at all. -/
def wNoName : TgUser :=
  { id := 77, username := none, first_name := none, last_name := none }

/-- C7 witness: the nameless profile falls back to `"tg77"`, and
sanitizing the empty string still yields a non-empty name. -/
theorem naming_fallback_nonempty_witness :
    raw_base wNoName = "tg" ++ toString (77 : Int) ∧
    sanitize_irc_name "" ≠ "" :=
  ⟨((naming_fallback_nonempty wNoName "").1 (by decide)).2 (by decide),
   (naming_fallback_nonempty wNoName "").2.1⟩

/-- A fresh Telegram profile (id 42) not yet in the table. -/
def c8User : TgUser :=
  { id := 42, username := some "carol", first_name := none, last_name := none }

/-- An inbound message from `c8User` in the bridged chat. -/
def c8Msg : TgMessage :=
  { chat_id := -100, from_user := c8User, text := some "hello" }

/-- C8: the claim (and spec §4.2/§7) requires registration failures to be
caught, logged and contained; the code has no try/except, so when
`irc.create_user` raises on the first message from id 42 (`collide`
constantly true), `on_telegram_message` evaluates to the propagated
error — the handler aborts instead of dropping the message. -/
theorem registration_failure_propagates :
    on_telegram_message wCfg (build_bridge_map wCfg) (fun _ => true)
      (some c8Msg) 0 initState
      = .error ("create_user failed: "
          ++ build_nick_from_telegram c8User wCfg) := rfl

/-- A two-entry table with distinct handles, for the C9 witness. -/
def c9St : RelayState :=
  { users := [(1, { user := 0, last_seen := 5 }),
              (2, { user := 1, last_seen := 6 })],
    nextHandle := 2 }

/-- C9: `teardown` leaves the `telegram_users` table exactly as it was
(every entry still present, nothing rewritten), emits a quit for every
stored identity, and — when stored handles are pairwise distinct, as the
allocator guarantees — `irc.quit` is invoked exactly once per identity. -/
theorem teardown_frame (st : RelayState) :
    (teardown st).1 = st ∧
    (∀ p, p ∈ st.users →
      Event.quitUser p.2.user "Telegram relay shutdown" ∈ (teardown st).2) ∧
    ((st.users.map (fun p => p.2.user)).Nodup →
      ∀ p, p ∈ st.users →
        ((teardown st).2.count
          (Event.quitUser p.2.user "Telegram relay shutdown")) = 1) := by
  refine ⟨rfl, ?_, ?_⟩
  · intro p hp
    simp only [teardown, List.mem_cons]
    exact Or.inr (List.mem_map.mpr ⟨p, hp, rfl⟩)
  · intro hnd p hp
    have hmem : Event.quitUser p.2.user "Telegram relay shutdown" ∈
        st.users.map
          (fun q => Event.quitUser q.2.user "Telegram relay shutdown") :=
      List.mem_map.mpr ⟨p, hp, rfl⟩
    have hnd2 := nodup_map_of_nodup_map (fun q : Int × UserEntry => q.2.user)
      (fun q => Event.quitUser q.2.user "Telegram relay shutdown")
      (fun a b hab => by injection hab) st.users hnd
    show (Event.logInfo "[telegram] plugin unloaded" ::
      st.users.map
        (fun q => Event.quitUser q.2.user "Telegram relay shutdown")).count
        (Event.quitUser p.2.user "Telegram relay shutdown") = 1
    rw [List.count_cons_of_ne (by simp)]
    exact List.count_eq_one_of_mem hnd2 hmem

/-- C9 witness: tearing down a two-identity table quits handle 0 exactly
once and leaves the table unchanged. -/
theorem teardown_frame_witness :
    (teardown c9St).1 = c9St ∧
    (teardown c9St).2.count (Event.quitUser 0 "Telegram relay shutdown")
      = 1 :=
  ⟨(teardown_frame c9St).1,
   (teardown_frame c9St).2.2 (by decide)
     (1, { user := 0, last_seen := 5 }) (by decide)⟩

theorem slookup_foldl_dictInsert (k : String) (bridges : List BridgeCfg) :
    ∀ m : List (String × BridgeCfg),
      slookup k (bridges.foldl
        (fun acc b => dictInsert acc (toString b.tg_chat_id) b) m)
      = match lastMatch (fun b => decide (toString b.tg_chat_id = k))
          bridges with
        | some b => some b
        | none => slookup k m := by
  induction bridges with
  | nil => intro m; simp [lastMatch]
  | cons b rest ih =>
      intro m
      simp only [List.foldl_cons, lastMatch]
      rw [ih (dictInsert m (toString b.tg_chat_id) b)]
      cases hl : lastMatch (fun b => decide (toString b.tg_chat_id = k))
          rest with
      | some x => simp [hl]
      | none =>
          simp only [hl]
          by_cases hb : toString b.tg_chat_id = k
          · subst hb
            simp [slookup_dictInsert_self]
          · simp [hb, slookup_dictInsert_ne m k (toString b.tg_chat_id) b hb]

/-- First bridge of the duplicated configuration. -/
def c10B1 : BridgeCfg := { tg_chat_id := -100, irc_channel := "#one" }

/-- Second bridge, same remote chat id, different channel. -/
def c10B2 : BridgeCfg := { tg_chat_id := -100, irc_channel := "#two" }

/-- A configuration declaring the same remote chat id twice. -/
def c10Cfg : Cfg :=
  { identity := wCfg.identity, limits := wCfg.limits,
    bridges := [c10B1, c10B2] }

/-- C10: `build_bridge_map` keys bridges by `str(chat_id)`, so lookup
returns the last configured bridge with that id (the general `lastMatch`
characterization); on the duplicated configuration the map holds only the
second bridge, and an inbound message from the duplicated chat is posted
only to the last-configured bridge's channel. -/
theorem bridge_map_last_wins (cfg : Cfg) (k : String) (m : TgMessage)
    (t : String) (collide : String → Bool) (now : Int)
    (st st' : RelayState) (evs : List Event) (b : BridgeCfg) :
    (slookup k (build_bridge_map cfg)
      = lastMatch (fun br => decide (toString br.tg_chat_id = k))
          cfg.bridges) ∧
    build_bridge_map c10Cfg = [("-100", c10B2)] ∧
    (m.text = some t → t.isEmpty = false →
      lastMatch (fun br => decide (toString br.tg_chat_id
        = toString m.chat_id)) cfg.bridges = some b →
      on_telegram_message cfg (build_bridge_map cfg) collide (some m) now st
        = .ok (st', evs) →
      ∃ h, evs.filter isPrivmsgEvent =
        [Event.sendPrivmsg b.irc_channel (pyTake t cfg.limits.message_max)
          h]) := by
  have hgen : ∀ k2 : String, slookup k2 (build_bridge_map cfg)
      = lastMatch (fun br => decide (toString br.tg_chat_id = k2))
          cfg.bridges := by
    intro k2
    rw [build_bridge_map, slookup_foldl_dictInsert k2 cfg.bridges []]
    cases hx : lastMatch (fun br => decide (toString br.tg_chat_id = k2))
        cfg.bridges with
    | some x => simp [hx]
    | none => simp [hx, slookup]
  refine ⟨hgen k, by decide, ?_⟩
  intro ht hne hlast hok
  have hb : slookup (toString m.chat_id) (build_bridge_map cfg) = some b := by
    rw [hgen (toString m.chat_id), hlast]
  exact onTg_one_privmsg cfg (build_bridge_map cfg) collide m t now st st'
    evs b ht hne hb hok

/-- The inbound message used by the C10 witness. -/
def c10Msg : TgMessage :=
  { chat_id := -100, from_user := wAlice, text := some "hi" }

/-- State after relaying `c10Msg` into the empty state at time 3. -/
def c10St : RelayState :=
  { users := [(5, { user := 0, last_seen := 3 })], nextHandle := 1 }

/-- Events of that relay: the created user joins both configured
channels, but the message is posted only to `#two`. -/
def c10Evs : List Event :=
  [Event.createUser "alice/tg" "telegram" "tg.relay" "Telegram @alice" 0,
   Event.joinChan 0 "#one",
   Event.joinChan 0 "#two",
   Event.logInfo "[telegram] created IRC user: alice/tg",
   Event.sendPrivmsg "#two" "hi" 0]

/-- C10 witness: under the duplicated configuration, lookup of `"-100"`
yields the second bridge and the inbound relay posts only to its channel
`#two`, never to the first bridge's `#one`. -/
theorem bridge_map_last_wins_witness :
    slookup "-100" (build_bridge_map c10Cfg) = some c10B2 ∧
    (∃ h, c10Evs.filter isPrivmsgEvent =
      [Event.sendPrivmsg c10B2.irc_channel
        (pyTake "hi" c10Cfg.limits.message_max) h]) := by
  have T := bridge_map_last_wins c10Cfg "-100" c10Msg "hi" (fun _ => false)
    3 initState c10St c10Evs c10B2
  constructor
  · rw [T.1]; decide
  · exact T.2.2 rfl (by decide) (by decide) rfl

end Telegram
